import Mathlib

/-!
Shallow embedding of `cmds/cmp/cmp.go` (u-root `cmp`).

The program spawns one `emit` goroutine per source.  `emit` optionally seeks
to a starting offset, then sends every byte of the source on a channel of
`byte`; on ANY read error (including `io.EOF`) it closes the channel and
returns the error, which the caller discards (`go emit(...)`).  Receiving
from a closed Go channel of `byte` yields the zero value `0`, so from the
comparator's point of view each source is the infinite byte stream
`bytes ++ 0,0,0,...`.  We model a source as a `List Nat` of byte values and
a receive at index `i` as `s.getD i 0`.

The comparator (`main`'s `for` loop) receives one byte from each channel per
iteration, starting from `charno = 1`, `lineno = 1`, and

  * on `b1 ≠ b2`: in silent mode exits 1 with no output; in line mode prints
    "f1 f2 differ: char C line L" and exits 1; in long mode prints
    "EOF on f1" / "EOF on f2" and exits 1 when `b1 = 0` resp. `b2 = 0`,
    otherwise prints "%8d %#.2o %#.2o" and falls through (`goto skip`) to
    keep looping; otherwise (default mode) prints "f1 f2 differ: char C" and
    exits 1;
  * then (`skip:`) increments `charno`, increments `lineno` when `b1` is a
    newline, and exits 0 when `b1 = 0 ∧ b2 = 0`.

Note the source file uses `fmt.Fprintf` without importing `fmt`; we embed
the evidently intended standard `fmt` semantics for those calls.
-/

namespace UCmp

/-- The three boolean mode flags `-s` (silent), `-L` ( line) and `-l` ( long),
tested by the comparator in exactly this order. -/
structure Flags where
  silent : Bool
  line : Bool
  long : Bool
deriving DecidableEq, Repr

/-- A message printed to standard error by the comparison loop (without the
trailing newline added by the `\n` in each format string). -/
inductive Event where
  /-- "%s %s differ: char %d line %d" (line mode). -/
  | differLine (f1 f2 : String) (charno lineno : Nat)
  /-- "EOF on %s" ( long mode, when the received byte is 0). -/
  | eofOn (fname : String)
  /-- "%8d %#.2o %#.2o" ( long mode, both bytes nonzero). -/
  | octalLine (charno b1 b2 : Nat)
  /-- "%s %s differ: char %d" (default mode). -/
  | differChar (f1 f2 : String) (charno : Nat)
deriving DecidableEq, Repr

/-- Process exit status of the comparison loop: `os.Exit(0)` or `os.Exit(1)`. -/
inductive ExitStatus where
  | exit0
  | exit1
deriving DecidableEq, Repr

/-- What a run of the comparison loop produces: the events printed to the
diagnostic stream, in order, and the exit status. -/
structure RunResult where
  events : List Event
  status : ExitStatus
deriving DecidableEq, Repr

/-- A receive of the `i`-th value from the channel fed by `emit` for source
`s`: the `i`-th byte of `s` while available, and `0` (the zero value of Go's
`byte`, produced by receiving from a closed channel) from then on. -/
def recv (s : List Nat) (i : Nat) : Nat :=
  s.getD i 0

/-- The comparator loop of `main`, from iteration `i` (0-based; the bytes
received this iteration are `recv s1 i` and `recv s2 i`, channel reads
after close yielding `0`) with current counters `charno` and `lineno`. -/
def cmpLoop (fl : Flags) (f1 f2 : String) (s1 s2 : List Nat)
    (i charno lineno : Nat) : RunResult :=
  if recv s1 i ≠ recv s2 i then
    if fl.silent then ⟨[], .exit1⟩
    else if fl.line then ⟨[.differLine f1 f2 charno lineno], .exit1⟩
    else if fl.long then
      if h1 : recv s1 i = 0 then ⟨[.eofOn f1], .exit1⟩
      else if h2 : recv s2 i = 0 then ⟨[.eofOn f2], .exit1⟩
      else
        let r := cmpLoop fl f1 f2 s1 s2 (i + 1) (charno + 1)
          (if recv s1 i = 10 then lineno + 1 else lineno)
        ⟨.octalLine charno (recv s1 i) (recv s2 i) :: r.events, r.status⟩
    else ⟨[.differChar f1 f2 charno], .exit1⟩
  else
    -- `skip:` — equal bytes; `b1 == 0 && b2 == 0` collapses to `b1 = 0` here.
    if h0 : recv s1 i = 0 then ⟨[], .exit0⟩
    else cmpLoop fl f1 f2 s1 s2 (i + 1) (charno + 1)
      (if recv s1 i = 10 then lineno + 1 else lineno)
termination_by max s1.length s2.length + 1 - i
decreasing_by
  · have hb : i < s1.length := by
      by_contra hc
      exact h1 (List.getD_eq_default s1 0 (Nat.le_of_not_lt hc))
    have hm := Nat.le_max_left s1.length s2.length
    omega
  · have hb : i < s1.length := by
      by_contra hc
      exact h0 (List.getD_eq_default s1 0 (Nat.le_of_not_lt hc))
    have hm := Nat.le_max_left s1.length s2.length
    omega

/-- A whole run of the comparison loop, from the code's initial
`lineno, charno := int64(1), int64(1)`. -/
def cmpRun (fl : Flags) (f1 f2 : String) (s1 s2 : List Nat) : RunResult :=
  cmpLoop fl f1 f2 s1 s2 0 1 1

/-- No flag set: default reporting mode. -/
def flagsDefault : Flags := ⟨false, false, false⟩

/-- Only `-s` set: silent mode. -/
def flagsSilent : Flags := ⟨true, false, false⟩

/-- Only `-L` set: line-number mode. -/
def flagsLine : Flags := ⟨false, true, false⟩

/-- Only `-l` set: long (byte-listing) mode. -/
def flagsLong : Flags := ⟨false, false, true⟩

/-- Unfolding lemma: an equal, nonzero byte pair is consumed, `charno` is
incremented, and `lineno` is incremented exactly when the first source's byte
is a newline (byte 10). -/
theorem cmpLoop_step_eq (fl : Flags) (f1 f2 : String) (s1 s2 : List Nat)
    (i c l : Nat) (heq : recv s1 i = recv s2 i) (hz : recv s1 i ≠ 0) :
    cmpLoop fl f1 f2 s1 s2 i c l =
      cmpLoop fl f1 f2 s1 s2 (i + 1) (c + 1)
        (if recv s1 i = 10 then l + 1 else l) := by
  have hcond : ¬(recv s1 i ≠ recv s2 i) := fun hn => hn heq
  rw [cmpLoop, if_neg hcond, dif_neg hz]

/-- Unfolding lemma: when both received bytes are `0` (both channels closed,
or a shared NUL byte), the loop exits with status 0 and no output. -/
theorem cmpLoop_zero (fl : Flags) (f1 f2 : String) (s1 s2 : List Nat)
    (i c l : Nat) (h1 : recv s1 i = 0) (h2 : recv s2 i = 0) :
    cmpLoop fl f1 f2 s1 s2 i c l = ⟨[], .exit0⟩ := by
  rw [cmpLoop]
  simp [h1, h2]

/-- Unfolding lemma: a mismatch in default mode prints the char number and
exits 1. -/
theorem cmpLoop_diff_default (f1 f2 : String) (s1 s2 : List Nat)
    (i c l : Nat) (hne : recv s1 i ≠ recv s2 i) :
    cmpLoop flagsDefault f1 f2 s1 s2 i c l = ⟨[.differChar f1 f2 c], .exit1⟩ := by
  rw [cmpLoop]
  simp [flagsDefault, hne]

/-- Unfolding lemma: a mismatch in silent mode exits 1 with no output. -/
theorem cmpLoop_diff_silent (f1 f2 : String) (s1 s2 : List Nat)
    (i c l : Nat) (hne : recv s1 i ≠ recv s2 i) :
    cmpLoop flagsSilent f1 f2 s1 s2 i c l = ⟨[], .exit1⟩ := by
  rw [cmpLoop]
  simp [flagsSilent, hne]

/-- Unfolding lemma: a mismatch in line mode prints char and line numbers and
exits 1. -/
theorem cmpLoop_diff_line (f1 f2 : String) (s1 s2 : List Nat)
    (i c l : Nat) (hne : recv s1 i ≠ recv s2 i) :
    cmpLoop flagsLine f1 f2 s1 s2 i c l = ⟨[.differLine f1 f2 c l], .exit1⟩ := by
  rw [cmpLoop]
  simp [flagsLine, hne]

/-- Unfolding lemma: a mismatch in long mode with `b1 = 0` prints `EOF on f1`
and exits 1. -/
theorem cmpLoop_long_eof1 (f1 f2 : String) (s1 s2 : List Nat)
    (i c l : Nat) (hne : recv s1 i ≠ recv s2 i) (h1 : recv s1 i = 0) :
    cmpLoop flagsLong f1 f2 s1 s2 i c l = ⟨[.eofOn f1], .exit1⟩ := by
  rw [cmpLoop]
  simp [flagsLong, hne, h1]
  exact fun h => hne (h1.trans h)

/-- Unfolding lemma: a mismatch in long mode with `b1 ≠ 0`, `b2 = 0` prints
`EOF on f2` and exits 1. -/
theorem cmpLoop_long_eof2 (f1 f2 : String) (s1 s2 : List Nat)
    (i c l : Nat) (hne : recv s1 i ≠ recv s2 i) (h1 : recv s1 i ≠ 0)
    (h2 : recv s2 i = 0) :
    cmpLoop flagsLong f1 f2 s1 s2 i c l = ⟨[.eofOn f2], .exit1⟩ := by
  rw [cmpLoop]
  simp [flagsLong, hne, h1, h2]

/-- Unfolding lemma: a mismatch of two nonzero bytes in long mode prints the
octal listing line and continues the loop with updated counters. -/
theorem cmpLoop_long_octal (f1 f2 : String) (s1 s2 : List Nat)
    (i c l : Nat) (hne : recv s1 i ≠ recv s2 i) (h1 : recv s1 i ≠ 0)
    (h2 : recv s2 i ≠ 0) :
    cmpLoop flagsLong f1 f2 s1 s2 i c l =
      ⟨.octalLine c (recv s1 i) (recv s2 i) ::
        (cmpLoop flagsLong f1 f2 s1 s2 (i + 1) (c + 1)
          (if recv s1 i = 10 then l + 1 else l)).events,
       (cmpLoop flagsLong f1 f2 s1 s2 (i + 1) (c + 1)
          (if recv s1 i = 10 then l + 1 else l)).status⟩ := by
  rw [cmpLoop]
  simp [flagsLong, hne, h1, h2]

/-- Skipping an equal, NUL-free common region: the loop walks `k` positions,
advancing `charno` by `k` and ending at some line count `l2`. -/
theorem cmpLoop_skip (fl : Flags) (f1 f2 : String) (s1 s2 : List Nat) (k : Nat) :
    ∀ i c l, (∀ j, j < k → recv s1 (i + j) = recv s2 (i + j) ∧ recv s1 (i + j) ≠ 0) →
    ∃ l2, cmpLoop fl f1 f2 s1 s2 i c l = cmpLoop fl f1 f2 s1 s2 (i + k) (c + k) l2 := by
  induction k with
  | zero => exact fun i c l _ => ⟨l, rfl⟩
  | succ k ih =>
    intro i c l h
    have h0 := h 0 k.succ_pos
    rw [cmpLoop_step_eq fl f1 f2 s1 s2 i c l h0.1 h0.2]
    have e1 : i + (k + 1) = (i + 1) + k := by omega
    have e2 : c + (k + 1) = (c + 1) + k := by omega
    rw [e1, e2]
    refine ih (i + 1) (c + 1) _ (fun j hj => ?_)
    have hh := h (j + 1) (by omega)
    have e : i + (j + 1) = i + 1 + j := by omega
    rw [e] at hh
    exact hh

/-- The effect of `emit`'s initial `rs.Seek(offset, 0)` (performed only when
`offset > 0`; a negative or zero offset leaves the position at 0, and seeking
past the end succeeds and makes every subsequent read return `io.EOF`): the
bytes subsequently streamed are the source's bytes from position `offset`
on. -/
def emitStream (s : List Nat) (offset : Int) : List Nat :=
  s.drop offset.toNat

/-- The whole comparison as a function of the two sources' contents and their
starting offsets: each `emit` goroutine feeds its channel with its source's
bytes from its own offset on, and `main`'s loop consumes the two channels in
lockstep. -/
def cmpMain (fl : Flags) (f1 f2 : String) (s1 s2 : List Nat)
    (off1 off2 : Int) : RunResult :=
  cmpRun fl f1 f2 (emitStream s1 off1) (emitStream s2 off2)

/-- Outcome of a single `b.ReadByte()` call inside `emit`'s loop: a byte, the
expected end-of-stream error `io.EOF`, or any other (mid-stream) read
error. -/
inductive ReadOutcome where
  | ok (b : Nat)
  | eof
  | readFail
deriving DecidableEq, Repr

/-- The bytes `emit` sends on its channel, as a function of the successive
outcomes of its `ReadByte` calls: bytes are forwarded until the first error
of ANY kind, at which point `emit` runs `close(c); return err`. -/
def emitSent : List ReadOutcome → List Nat
  | [] => []
  | .ok b :: rest => b :: emitSent rest
  | .eof :: _ => []
  | .readFail :: _ => []

/-- The error value `emit` returns (the first `ReadByte` error).  `main`
launches `emit` with `go emit(f, c[i], offset[i])`, so this value is
discarded: nothing in the program ever inspects it. -/
def emitReturns : List ReadOutcome → Option ReadOutcome
  | [] => none
  | .ok _ :: rest => emitReturns rest
  | .eof :: _ => some .eof
  | .readFail :: _ => some .readFail

/-- The comparison as a function of the raw read outcomes of the two sources:
the comparator only ever sees the bytes each `emit` managed to send before
closing its channel. -/
def cmpMainReads (fl : Flags) (f1 f2 : String)
    (r1 r2 : List ReadOutcome) : RunResult :=
  cmpRun fl f1 f2 (emitSent r1) (emitSent r2)

/-- Numeric value of a digit character, as in Go's `strconv` lower/upper
letter handling; `99` stands for "not a digit in any base ≤ 36". -/
def digitVal (ch : Char) : Nat :=
  if '0' ≤ ch ∧ ch ≤ '9' then ch.toNat - 48
  else if 'a' ≤ ch ∧ ch ≤ 'z' then ch.toNat - 87
  else if 'A' ≤ ch ∧ ch ≤ 'Z' then ch.toNat - 55
  else 99

/-- Accumulating digit parse in the given base; fails on the first character
that is not a digit of the base. -/
def parseDigitsAux (base : Nat) : List Char → Nat → Option Nat
  | [], acc => some acc
  | ch :: rest, acc =>
    if digitVal ch < base then parseDigitsAux base rest (acc * base + digitVal ch)
    else none

/-- Parse a nonempty digit string in the given base. -/
def parseDigits (base : Nat) (l : List Char) : Option Nat :=
  match l with
  | [] => none
  | _ => parseDigitsAux base l 0

/-- Base auto-detection of Go's `strconv.ParseInt(s, 0, 64)` applied to the
unsigned part: `0x`/`0X` hexadecimal, `0b`/`0B` binary, `0o`/`0O` octal,
a remaining leading `0` octal, otherwise decimal.  (Go additionally allows
`_` separators between digits when base is 0; no claim involves them and
they are not modelled.) -/
def parseUnsigned0 : List Char → Option Nat
  | [] => none
  | '0' :: 'x' :: rest => parseDigits 16 rest
  | '0' :: 'X' :: rest => parseDigits 16 rest
  | '0' :: 'o' :: rest => parseDigits 8 rest
  | '0' :: 'O' :: rest => parseDigits 8 rest
  | '0' :: 'b' :: rest => parseDigits 2 rest
  | '0' :: 'B' :: rest => parseDigits 2 rest
  | '0' :: rest => if rest.isEmpty then some 0 else parseDigits 8 rest
  | l => parseDigits 10 l

/-- Model of `strconv.ParseInt(s, 0, 64)` as used for the offset arguments:
optional sign, base auto-detection, and the int64 range check (Go returns
`ErrRange`, i.e. a non-nil error, on overflow, which `main` treats as a
parse failure). -/
def parseInt0 (s : String) : Option Int :=
  match s.data with
  | '+' :: rest =>
    (parseUnsigned0 rest).bind fun n =>
      if n ≤ 2 ^ 63 - 1 then some (n : Int) else none
  | '-' :: rest =>
    (parseUnsigned0 rest).bind fun n =>
      if n ≤ 2 ^ 63 then some (-(n : Int)) else none
  | l =>
    (parseUnsigned0 l).bind fun n =>
      if n ≤ 2 ^ 63 - 1 then some (n : Int) else none

/-- How `main` leaves its argument-handling `switch`:

* `fatalUsage got` — wrong positional-argument count: `log.Fatalf(...)`,
  which prints to standard error and calls `os.Exit(1)`;
* `badOffset which tok` — offset token `tok` (the `which`-th offset) failed
  to parse: `main` prints `bad offsetN: tok: err` to standard error and then
  executes a plain `return`, so the process exits normally;
* `proceed off1 off2` — comparison starts with these offsets. -/
inductive Setup where
  | fatalUsage (got : Nat)
  | badOffset (which : Nat) (tok : String)
  | proceed (off1 off2 : Int)
deriving DecidableEq, Repr

/-- The argument-handling `switch len(fnames)` at the top of `main`. -/
def parseArgs : List String → Setup
  | [_, _] => .proceed 0 0
  | [_, _, o1] =>
    match parseInt0 o1 with
    | some v => .proceed v 0
    | none => .badOffset 1 o1
  | [_, _, o1, o2] =>
    match parseInt0 o1 with
    | some v1 =>
      match parseInt0 o2 with
      | some v2 => .proceed v1 v2
      | none => .badOffset 2 o2
    | none => .badOffset 1 o1
  | args => .fatalUsage args.length

/-- Process exit code produced by each argument-handling outcome, when no
comparison runs: `log.Fatalf` exits 1, the `return` after a bad offset ends
`main` normally with exit code 0.  `none` means the comparison loop runs and
determines the exit code. -/
def setupExitCode : Setup → Option Nat
  | .fatalUsage _ => some 1
  | .badOffset _ _ => some 0
  | .proceed _ _ => none

/-- Whether an argument-handling outcome prints a diagnostic message before
`main` ends (both error paths do). -/
def setupPrintsMessage : Setup → Bool
  | .fatalUsage _ => true
  | .badOffset _ _ => true
  | .proceed _ _ => false

/-- Zero-pad a digit string on the left to at least two digits, as the
precision `.2` of Go's `%#.2o` does. -/
def pad2 (ds : List Char) : List Char :=
  if ds.length < 2 then List.replicate (2 - ds.length) '0' ++ ds else ds

/-- Prepend the leading `0` of Go's `#` flag for octal, unless the digits
already start with one. -/
def sharpen (ds : List Char) : List Char :=
  if ds.head? = some '0' then ds else '0' :: ds

/-- The characters Go's `fmt` produces for `%#.2o` applied to byte value
`n`: the octal digits of `n`, zero-padded to at least two digits, with a
leading `0` added when not already present. -/
def goOct2Chars (n : Nat) : List Char :=
  sharpen (pad2 (Nat.toDigits 8 n))

/-- Left-pad a character string with spaces to width `w`, as Go's `%8d`
width does for short numbers. -/
def padChars (w : Nat) (s : List Char) : List Char :=
  List.replicate (w - s.length) ' ' ++ s

/-- The text each `Event` puts on standard error (without the trailing
newline), following the `fmt.Fprintf` format strings in `main`:
`"%s %s differ: char %d line %d"`, `"EOF on %s"`, `"%8d %#.2o %#.2o"` and
`"%s %s differ: char %d"`.  `goOct2Chars` renders Go's `%#.2o`: at least two
octal digits (precision 2) plus a leading `0` when the digits do not already
start with one (# flag). -/
def renderEvent : Event → String
  | .differLine f1 f2 c l =>
    f1 ++ " " ++ f2 ++ " differ: char " ++ Nat.repr c ++ " line " ++ Nat.repr l
  | .eofOn f => "EOF on " ++ f
  | .octalLine c b1 b2 =>
    String.mk (padChars 8 (Nat.repr c).data) ++ " " ++
      String.mk (goOct2Chars b1) ++ " " ++ String.mk (goOct2Chars b2)
  | .differChar f1 f2 c =>
    f1 ++ " " ++ f2 ++ " differ: char " ++ Nat.repr c

/-- Padding to precision 2 yields at least two characters. -/
theorem pad2_two_le (ds : List Char) : 2 ≤ (pad2 ds).length := by
  unfold pad2
  split_ifs with h
  · simp only [List.length_append, List.length_replicate]
    omega
  · omega

/-- The `#` flag never shortens the digit string. -/
theorem length_le_sharpen (ds : List Char) : ds.length ≤ (sharpen ds).length := by
  unfold sharpen
  split_ifs with h
  · exact Nat.le_refl _
  · simp

/-- Go's `%#.2o` always renders at least two digit characters. -/
theorem goOct2Chars_two_le (n : Nat) : 2 ≤ (goOct2Chars n).length :=
  Nat.le_trans (pad2_two_le _) (length_le_sharpen _)

/-- C1 (counterexample).  The sources `00 61` and `00 62` (hex) first differ
at compared position 2 — position 1 holds an equal byte pair — yet default
mode and line mode print nothing at all and exit 0: the shared NUL byte at
position 1 is indistinguishable from two simultaneously closed channels, so
the loop stops there and no message giving position 2 is ever printed. -/
theorem C1_counterexample :
    recv [0, 97] 0 = recv [0, 98] 0 ∧ recv [0, 97] 1 ≠ recv [0, 98] 1 ∧
    cmpRun flagsDefault "f1" "f2" [0, 97] [0, 98] = ⟨[], .exit0⟩ ∧
    cmpRun flagsLine "f1" "f2" [0, 97] [0, 98] = ⟨[], .exit0⟩ := by
  refine ⟨by decide, by decide, ?_, ?_⟩ <;>
    simp [cmpRun, cmpLoop, recv, flagsDefault, flagsLine]

/-- C1 (amended).  For every pair of sources whose contents first differ at
compared position `k`, PROVIDED the common prefix before `k` contains no NUL
byte, default mode prints exactly one message giving position `k` as the char
number and exits 1, and line mode does the same (with some line number); no
difference at an earlier position is reported. -/
theorem C1_first_difference_reported (f1 f2 : String) (s1 s2 : List Nat)
    (k : Nat) (hk : 1 ≤ k)
    (hpre : ∀ i, i < k - 1 → recv s1 i = recv s2 i ∧ recv s1 i ≠ 0)
    (hdiff : recv s1 (k - 1) ≠ recv s2 (k - 1)) :
    cmpRun flagsDefault f1 f2 s1 s2 = ⟨[.differChar f1 f2 k], .exit1⟩ ∧
    ∃ L, cmpRun flagsLine f1 f2 s1 s2 = ⟨[.differLine f1 f2 k L], .exit1⟩ := by
  constructor
  · obtain ⟨l2, hsk⟩ := cmpLoop_skip flagsDefault f1 f2 s1 s2 (k - 1) 0 1 1
      (fun j hj => by simpa using hpre j hj)
    have e1 : 0 + (k - 1) = k - 1 := by omega
    have e2 : 1 + (k - 1) = k := by omega
    rw [e1, e2] at hsk
    show cmpLoop flagsDefault f1 f2 s1 s2 0 1 1 = _
    rw [hsk]
    exact cmpLoop_diff_default f1 f2 s1 s2 (k - 1) k l2 hdiff
  · obtain ⟨l2, hsk⟩ := cmpLoop_skip flagsLine f1 f2 s1 s2 (k - 1) 0 1 1
      (fun j hj => by simpa using hpre j hj)
    have e1 : 0 + (k - 1) = k - 1 := by omega
    have e2 : 1 + (k - 1) = k := by omega
    rw [e1, e2] at hsk
    refine ⟨l2, ?_⟩
    show cmpLoop flagsLine f1 f2 s1 s2 0 1 1 = _
    rw [hsk]
    exact cmpLoop_diff_line f1 f2 s1 s2 (k - 1) k l2 hdiff

/-- C1 (witness).  Sources `ab` and `ac` first differ at position 2; both
terminating modes report char 2 and exit 1. -/
theorem C1_witness :
    cmpRun flagsDefault "x" "y" [97, 98] [97, 99] =
      ⟨[.differChar "x" "y" 2], .exit1⟩ ∧
    ∃ L, cmpRun flagsLine "x" "y" [97, 98] [97, 99] =
      ⟨[.differLine "x" "y" 2 L], .exit1⟩ :=
  C1_first_difference_reported "x" "y" [97, 98] [97, 99] 2 (by decide)
    (by decide) (by decide)

/-- C2 (code bug).  Long mode on the sources `ab` and `ba` detects and prints
two differing positions and then exits with status 0, not 1: after the long
branch falls through, the loop ends on the simultaneous zero values of the
two closed channels and runs `os.Exit(0)` without recording that differences
were seen.  The claim (and the spec's "1 = sources differ") says this run
must exit 1. -/
theorem C2_long_differ_exit0 :
    cmpRun flagsLong "f1" "f2" [97, 98] [98, 97] =
      ⟨[.octalLine 1 97 98, .octalLine 2 98 97], .exit0⟩ := by
  simp [cmpRun, cmpLoop, recv, flagsLong]

/-- C3 (confirmed).  If both sources hold a NUL byte at the same compared
position `p` and the pairs before `p` are equal and NUL-free (so the loop
reaches `p`), then in every reporting mode the run terminates there with exit
status 0 and no output, regardless of the remaining bytes of either source:
a received 0 is indistinguishable from the closed-channel end-of-stream
signal. -/
theorem C3_shared_nul_exit0 (fl : Flags) (f1 f2 : String) (s1 s2 : List Nat)
    (p : Nat) (hp : 1 ≤ p)
    (hpre : ∀ i, i < p - 1 → recv s1 i = recv s2 i ∧ recv s1 i ≠ 0)
    (h1 : recv s1 (p - 1) = 0) (h2 : recv s2 (p - 1) = 0) :
    cmpRun fl f1 f2 s1 s2 = ⟨[], .exit0⟩ := by
  obtain ⟨l2, hsk⟩ := cmpLoop_skip fl f1 f2 s1 s2 (p - 1) 0 1 1
    (fun j hj => by simpa using hpre j hj)
  have e1 : 0 + (p - 1) = p - 1 := by omega
  rw [e1] at hsk
  show cmpLoop fl f1 f2 s1 s2 0 1 1 = _
  rw [hsk]
  exact cmpLoop_zero fl f1 f2 s1 s2 (p - 1) (1 + (p - 1)) l2 h1 h2

/-- C3 (witness).  The sources `00 61` and `00 62` share a NUL at position 1
and differ afterwards; the run (long mode here) exits 0 with no output. -/
theorem C3_witness :
    cmpRun flagsLong "f1" "f2" [0, 97] [0, 98] = ⟨[], .exit0⟩ :=
  C3_shared_nul_exit0 flagsLong "f1" "f2" [0, 97] [0, 98] 1 (by decide)
    (by decide) (by decide) (by decide)

/-- C4 (code bug).  A Stream Reader hitting a mid-stream read error behaves
exactly like one hitting expected end-of-stream: `emit` runs
`close(c); return err` for every `ReadByte` error alike, the returned error
is discarded by `go emit(...)`, and nothing aborts.  Concretely, a source
that yields byte 97 and then fails mid-read feeds the comparator the same
channel content as a clean one-byte source, and the program completes an
ordinary comparison (here against `ab`: difference at char 2, exit 1)
instead of failing loudly with a fatal diagnostic. -/
theorem C4_read_error_as_eof :
    emitSent [.ok 97, .readFail] = emitSent [.ok 97, .eof] ∧
    emitReturns [.ok 97, .readFail] = some .readFail ∧
    cmpMainReads flagsDefault "f1" "f2" [.ok 97, .readFail]
      [.ok 97, .ok 98, .eof] = ⟨[.differChar "f1" "f2" 2], .exit1⟩ := by
  refine ⟨by decide, by decide, ?_⟩
  simp [cmpMainReads, cmpRun, emitSent, cmpLoop, recv, flagsDefault]

/-- C5 (counterexample).  `61` is a strict prefix of `61 00` (hex), yet long
mode reports no end-of-stream condition and exits 0 — and default mode also
reports nothing and exits 0: when the byte of the longer source at the first
position past the shorter one is NUL, it coincides with the shorter source's
closed-channel zero value and the pair counts as equal. -/
theorem C5_counterexample :
    ([97] : List Nat).length < ([97, 0] : List Nat).length ∧
    (∀ i, i < ([97] : List Nat).length → recv [97] i = recv [97, 0] i) ∧
    cmpRun flagsLong "f1" "f2" [97] [97, 0] = ⟨[], .exit0⟩ ∧
    cmpRun flagsDefault "f1" "f2" [97] [97, 0] = ⟨[], .exit0⟩ := by
  refine ⟨by decide, by decide, ?_, ?_⟩ <;>
    simp [cmpRun, cmpLoop, recv, flagsLong, flagsDefault]

/-- C5 (amended).  For sources where one is a strict prefix of the other,
PROVIDED the first `short.length + 1` bytes of the longer source are all
non-NUL, long mode reports an end-of-stream condition naming the shorter
source (whichever side it is on) and exits 1; default mode reports a
difference at position `short.length + 1`, line mode does the same with some
line number, and silent mode exits 1 without output. -/
theorem C5_eof_on_shorter (f1 f2 : String) (short other : List Nat)
    (hlen : short.length < other.length)
    (hpre : ∀ i, i < short.length → recv short i = recv other i)
    (hnz : ∀ i, i < short.length + 1 → recv other i ≠ 0) :
    (cmpRun flagsLong f1 f2 short other = ⟨[.eofOn f1], .exit1⟩ ∧
     cmpRun flagsDefault f1 f2 short other =
       ⟨[.differChar f1 f2 (short.length + 1)], .exit1⟩ ∧
     (∃ L, cmpRun flagsLine f1 f2 short other =
       ⟨[.differLine f1 f2 (short.length + 1) L], .exit1⟩) ∧
     cmpRun flagsSilent f1 f2 short other = ⟨[], .exit1⟩) ∧
    (cmpRun flagsLong f1 f2 other short = ⟨[.eofOn f2], .exit1⟩ ∧
     cmpRun flagsDefault f1 f2 other short =
       ⟨[.differChar f1 f2 (short.length + 1)], .exit1⟩ ∧
     (∃ L, cmpRun flagsLine f1 f2 other short =
       ⟨[.differLine f1 f2 (short.length + 1) L], .exit1⟩) ∧
     cmpRun flagsSilent f1 f2 other short = ⟨[], .exit1⟩) := by
  have hs0 : recv short short.length = 0 :=
    List.getD_eq_default short 0 (Nat.le_refl _)
  have ho : recv other short.length ≠ 0 := hnz short.length (by omega)
  have hne1 : recv short short.length ≠ recv other short.length := by
    rw [hs0]
    exact fun h => ho h.symm
  have hne2 : recv other short.length ≠ recv short short.length :=
    fun h => hne1 h.symm
  have hpair : ∀ j, j < short.length →
      recv short j = recv other j ∧ recv short j ≠ 0 := fun j hj =>
    ⟨hpre j hj, by rw [hpre j hj]; exact hnz j (by omega)⟩
  have hpair2 : ∀ j, j < short.length →
      recv other j = recv short j ∧ recv other j ≠ 0 := fun j hj =>
    ⟨(hpre j hj).symm, hnz j (by omega)⟩
  have hwalk : ∀ fl : Flags, ∃ l2, cmpLoop fl f1 f2 short other 0 1 1 =
      cmpLoop fl f1 f2 short other short.length (short.length + 1) l2 := by
    intro fl
    obtain ⟨l2, hsk⟩ := cmpLoop_skip fl f1 f2 short other short.length 0 1 1
      (fun j hj => by simpa using hpair j hj)
    have e1 : 0 + short.length = short.length := by omega
    have e2 : 1 + short.length = short.length + 1 := by omega
    rw [e1, e2] at hsk
    exact ⟨l2, hsk⟩
  have hwalk2 : ∀ fl : Flags, ∃ l2, cmpLoop fl f1 f2 other short 0 1 1 =
      cmpLoop fl f1 f2 other short short.length (short.length + 1) l2 := by
    intro fl
    obtain ⟨l2, hsk⟩ := cmpLoop_skip fl f1 f2 other short short.length 0 1 1
      (fun j hj => by simpa using hpair2 j hj)
    have e1 : 0 + short.length = short.length := by omega
    have e2 : 1 + short.length = short.length + 1 := by omega
    rw [e1, e2] at hsk
    exact ⟨l2, hsk⟩
  refine ⟨⟨?_, ?_, ?_, ?_⟩, ?_, ?_, ?_, ?_⟩
  · obtain ⟨l2, h⟩ := hwalk flagsLong
    show cmpLoop flagsLong f1 f2 short other 0 1 1 = _
    rw [h]
    exact cmpLoop_long_eof1 f1 f2 short other short.length (short.length + 1)
      l2 hne1 hs0
  · obtain ⟨l2, h⟩ := hwalk flagsDefault
    show cmpLoop flagsDefault f1 f2 short other 0 1 1 = _
    rw [h]
    exact cmpLoop_diff_default f1 f2 short other short.length
      (short.length + 1) l2 hne1
  · obtain ⟨l2, h⟩ := hwalk flagsLine
    refine ⟨l2, ?_⟩
    show cmpLoop flagsLine f1 f2 short other 0 1 1 = _
    rw [h]
    exact cmpLoop_diff_line f1 f2 short other short.length
      (short.length + 1) l2 hne1
  · obtain ⟨l2, h⟩ := hwalk flagsSilent
    show cmpLoop flagsSilent f1 f2 short other 0 1 1 = _
    rw [h]
    exact cmpLoop_diff_silent f1 f2 short other short.length
      (short.length + 1) l2 hne1
  · obtain ⟨l2, h⟩ := hwalk2 flagsLong
    show cmpLoop flagsLong f1 f2 other short 0 1 1 = _
    rw [h]
    exact cmpLoop_long_eof2 f1 f2 other short short.length
      (short.length + 1) l2 hne2 ho hs0
  · obtain ⟨l2, h⟩ := hwalk2 flagsDefault
    show cmpLoop flagsDefault f1 f2 other short 0 1 1 = _
    rw [h]
    exact cmpLoop_diff_default f1 f2 other short short.length
      (short.length + 1) l2 hne2
  · obtain ⟨l2, h⟩ := hwalk2 flagsLine
    refine ⟨l2, ?_⟩
    show cmpLoop flagsLine f1 f2 other short 0 1 1 = _
    rw [h]
    exact cmpLoop_diff_line f1 f2 other short short.length
      (short.length + 1) l2 hne2
  · obtain ⟨l2, h⟩ := hwalk2 flagsSilent
    show cmpLoop flagsSilent f1 f2 other short 0 1 1 = _
    rw [h]
    exact cmpLoop_diff_silent f1 f2 other short short.length
      (short.length + 1) l2 hne2

/-- C5 (witness).  `a` against `ab`: long mode reports EOF on the shorter
side in both argument orders; the other modes report char 2 or stay
silent, always with exit 1. -/
theorem C5_witness :
    (cmpRun flagsLong "f1" "f2" [97] [97, 98] = ⟨[.eofOn "f1"], .exit1⟩ ∧
     cmpRun flagsDefault "f1" "f2" [97] [97, 98] =
       ⟨[.differChar "f1" "f2" 2], .exit1⟩ ∧
     (∃ L, cmpRun flagsLine "f1" "f2" [97] [97, 98] =
       ⟨[.differLine "f1" "f2" 2 L], .exit1⟩) ∧
     cmpRun flagsSilent "f1" "f2" [97] [97, 98] = ⟨[], .exit1⟩) ∧
    (cmpRun flagsLong "f1" "f2" [97, 98] [97] = ⟨[.eofOn "f2"], .exit1⟩ ∧
     cmpRun flagsDefault "f1" "f2" [97, 98] [97] =
       ⟨[.differChar "f1" "f2" 2], .exit1⟩ ∧
     (∃ L, cmpRun flagsLine "f1" "f2" [97, 98] [97] =
       ⟨[.differLine "f1" "f2" 2 L], .exit1⟩) ∧
     cmpRun flagsSilent "f1" "f2" [97, 98] [97] = ⟨[], .exit1⟩) :=
  C5_eof_on_shorter "f1" "f2" [97] [97, 98] (by decide) (by decide) (by decide)

/-- C6 (counterexample).  At position 1 the sources `00 61` and `62 61` (hex)
give the differing pair (0, 98); neither source is at end-of-stream (the
first still holds two bytes), yet long mode prints `EOF on f1` and exits 1
instead of printing the octal listing line and continuing: the code cannot
tell a genuine NUL byte from its end-of-stream sentinel. -/
theorem C6_counterexample :
    ([0, 97] : List Nat).length = 2 ∧
    recv [0, 97] 0 ≠ recv [98, 97] 0 ∧
    cmpRun flagsLong "f1" "f2" [0, 97] [98, 97] = ⟨[.eofOn "f1"], .exit1⟩ := by
  refine ⟨by decide, by decide, ?_⟩
  simp [cmpRun, cmpLoop, recv, flagsLong]

/-- C6 (amended).  In long mode, for every differing byte pair in which
NEITHER BYTE VALUE IS 0 (rather than: neither side is at end-of-stream —
the code can only test the byte value), the program prints the char number
together with both byte values in octal, each rendered with at least two
digits, and then continues the comparison loop with the next position. -/
theorem C6_long_octal_continues (f1 f2 : String) (s1 s2 : List Nat)
    (i c l : Nat) (hne : recv s1 i ≠ recv s2 i) (h1 : recv s1 i ≠ 0)
    (h2 : recv s2 i ≠ 0) :
    cmpLoop flagsLong f1 f2 s1 s2 i c l =
      ⟨.octalLine c (recv s1 i) (recv s2 i) ::
        (cmpLoop flagsLong f1 f2 s1 s2 (i + 1) (c + 1)
          (if recv s1 i = 10 then l + 1 else l)).events,
       (cmpLoop flagsLong f1 f2 s1 s2 (i + 1) (c + 1)
          (if recv s1 i = 10 then l + 1 else l)).status⟩ ∧
    2 ≤ (goOct2Chars (recv s1 i)).length ∧
    2 ≤ (goOct2Chars (recv s2 i)).length :=
  ⟨cmpLoop_long_octal f1 f2 s1 s2 i c l hne h1 h2,
   goOct2Chars_two_le _, goOct2Chars_two_le _⟩

/-- C6 (witness).  The differing nonzero pair (97, 98) at position 1 is
printed as an octal line and the loop continues at position 2. -/
theorem C6_witness :
    cmpLoop flagsLong "x" "y" [97, 98] [98, 97] 0 1 1 =
      ⟨.octalLine 1 97 98 ::
        (cmpLoop flagsLong "x" "y" [97, 98] [98, 97] 1 2 1).events,
       (cmpLoop flagsLong "x" "y" [97, 98] [98, 97] 1 2 1).status⟩ ∧
    2 ≤ (goOct2Chars 97).length ∧ 2 ≤ (goOct2Chars 98).length := by
  have h := C6_long_octal_continues "x" "y" [97, 98] [98, 97] 0 1 1
    (by decide) (by decide) (by decide)
  simpa [recv] using h

/-- C7 (code bug).  A wrong positional-argument count is indeed fatal
(`log.Fatalf`, message plus exit 1), but an offset token that fails to parse
only prints its `bad offsetN` message and then executes a plain `return`
from `main`: the process exits with code 0, not nonzero as the claim
requires (no comparison is started either way). -/
theorem C7_usage_errors :
    parseArgs ["f1", "f2", "zzz"] = .badOffset 1 "zzz" ∧
    setupPrintsMessage (Setup.badOffset 1 "zzz") = true ∧
    setupExitCode (Setup.badOffset 1 "zzz") = some 0 ∧
    parseArgs ["f1"] = .fatalUsage 1 ∧
    setupPrintsMessage (Setup.fatalUsage 1) = true ∧
    setupExitCode (Setup.fatalUsage 1) = some 1 := by
  decide

/-- C8 (confirmed).  Both counters start at 1 (first conjunct); consuming an
equal byte pair advances the char counter by one and advances the line
counter exactly when the byte read from the FIRST source is a newline
(second conjunct); in the only other consuming step, long mode's
report-and-continue, the line counter again follows only the first source's
byte, so a newline on the second source alone never increments it (third
conjunct, hypothesis `recv s1 i ≠ 10` with `recv s2 i` arbitrary, line count
`l` passed on unchanged); and comparing `ab\ncd` with `ab\nCd` reports
divergence at char 4, line 2 (fourth conjunct). -/
theorem C8_counters :
    (∀ (fl : Flags) (f1 f2 : String) (s1 s2 : List Nat),
      cmpRun fl f1 f2 s1 s2 = cmpLoop fl f1 f2 s1 s2 0 1 1) ∧
    (∀ (fl : Flags) (f1 f2 : String) (s1 s2 : List Nat) (i c l : Nat),
      recv s1 i = recv s2 i → recv s1 i ≠ 0 →
      cmpLoop fl f1 f2 s1 s2 i c l =
        cmpLoop fl f1 f2 s1 s2 (i + 1) (c + 1)
          (if recv s1 i = 10 then l + 1 else l)) ∧
    (∀ (f1 f2 : String) (s1 s2 : List Nat) (i c l : Nat),
      recv s1 i ≠ recv s2 i → recv s1 i ≠ 0 → recv s2 i ≠ 0 →
      recv s1 i ≠ 10 →
      cmpLoop flagsLong f1 f2 s1 s2 i c l =
        ⟨.octalLine c (recv s1 i) (recv s2 i) ::
          (cmpLoop flagsLong f1 f2 s1 s2 (i + 1) (c + 1) l).events,
         (cmpLoop flagsLong f1 f2 s1 s2 (i + 1) (c + 1) l).status⟩) ∧
    cmpRun flagsLine "f1" "f2" [97, 98, 10, 99, 100] [97, 98, 10, 67, 100] =
      ⟨[.differLine "f1" "f2" 4 2], .exit1⟩ := by
  refine ⟨fun fl f1 f2 s1 s2 => rfl, ?_, ?_, ?_⟩
  · intro fl f1 f2 s1 s2 i c l heq hz
    exact cmpLoop_step_eq fl f1 f2 s1 s2 i c l heq hz
  · intro f1 f2 s1 s2 i c l hne h1 h2 h10
    have e : (if recv s1 i = 10 then l + 1 else l) = l := if_neg h10
    rw [cmpLoop_long_octal f1 f2 s1 s2 i c l hne h1 h2, e]
  · simp [cmpRun, cmpLoop, recv, flagsLine]

/-- C8 (witness).  A shared newline pair bumps the line counter from 1 to 2;
a mismatching pair whose SECOND byte is the newline leaves it at 1. -/
theorem C8_witness :
    cmpLoop flagsDefault "x" "y" [10, 97] [10, 98] 0 1 1 =
      cmpLoop flagsDefault "x" "y" [10, 97] [10, 98] 1 2 2 ∧
    cmpLoop flagsLong "x" "y" [97] [10] 0 1 1 =
      ⟨.octalLine 1 97 10 :: (cmpLoop flagsLong "x" "y" [97] [10] 1 2 1).events,
       (cmpLoop flagsLong "x" "y" [97] [10] 1 2 1).status⟩ := by
  constructor
  · have h := C8_counters.2.1 flagsDefault "x" "y" [10, 97] [10, 98] 0 1 1
      (by decide) (by decide)
    simpa [recv] using h
  · have h := C8_counters.2.2.1 "x" "y" [97] [10] 0 1 1
      (by decide) (by decide) (by decide) (by decide)
    simpa [recv] using h

/-- C9 (counterexample).  Comparing `hello` with `hellO` under `-l` does
print one line for position 5, but its text is `       5 0157 0117` — Go's
`%#.2o` renders 111 (`o`) as `0157` and 79 (`O`) as `0117`, leading `0`
included, and 154 octal would be `l`, not `o` — and the process then exits
0, not 1, because the loop ends on the two closed channels' zero values.
Both the exact message and the exit status of the claim are refuted. -/
theorem C9_counterexample :
    cmpRun flagsLong "f1" "f2" [104, 101, 108, 108, 111]
      [104, 101, 108, 108, 79] = ⟨[.octalLine 5 111 79], .exit0⟩ ∧
    renderEvent (.octalLine 5 111 79) = "       5 0157 0117" ∧
    "       5 0157 0117" ≠ ("       5 154 117" : String) := by
  refine ⟨?_, by decide, by decide⟩
  simp [cmpRun, cmpLoop, recv, flagsLong]

/-- C9 (amended).  Comparing `hello` and `hellO` with `-l` produces exactly
the message `       5 0157 0117` (char number right-aligned in width 8,
both differing bytes octal-encoded with the `#` leading zero and two-digit
minimum) and then, the loop reaching simultaneous end-of-stream, exit
status 0. -/
theorem C9_long_hello_output :
    (cmpRun flagsLong "f1" "f2" [104, 101, 108, 108, 111]
      [104, 101, 108, 108, 79]).events.map renderEvent =
      ["       5 0157 0117"] ∧
    (cmpRun flagsLong "f1" "f2" [104, 101, 108, 108, 111]
      [104, 101, 108, 108, 79]).status = .exit0 := by
  have h : cmpRun flagsLong "f1" "f2" [104, 101, 108, 108, 111]
      [104, 101, 108, 108, 79] = ⟨[.octalLine 5 111 79], .exit0⟩ := by
    simp [cmpRun, cmpLoop, recv, flagsLong]
  rw [h]
  exact ⟨by decide, rfl⟩

/-- C10 (confirmed).  `0x1A`, `032` and `26` all parse to 26 under the base
auto-detection of `strconv.ParseInt(_, 0, 64)` (and do so in `main`'s
argument handling); each offset shifts only its own source's starting read
position — the comparison runs on `s1` from `off1` and `s2` from `off2`,
and setting one offset is the same as pre-dropping that source alone —
as the concrete run `cmp -  -  (xyab, offset 2) (ab)` ending equal shows. -/
theorem C10_offsets :
    parseInt0 "0x1A" = some 26 ∧ parseInt0 "032" = some 26 ∧
    parseInt0 "26" = some 26 ∧
    parseArgs ["f1", "f2", "0x1A", "032"] = .proceed 26 26 ∧
    (∀ (fl : Flags) (f1 f2 : String) (s1 s2 : List Nat) (o1 o2 : Int),
      cmpMain fl f1 f2 s1 s2 o1 o2 =
        cmpRun fl f1 f2 (s1.drop o1.toNat) (s2.drop o2.toNat)) ∧
    (∀ (fl : Flags) (f1 f2 : String) (s1 s2 : List Nat) (o1 : Int),
      cmpMain fl f1 f2 s1 s2 o1 0 =
        cmpMain fl f1 f2 (s1.drop o1.toNat) s2 0 0) ∧
    (∀ (fl : Flags) (f1 f2 : String) (s1 s2 : List Nat) (o2 : Int),
      cmpMain fl f1 f2 s1 s2 0 o2 =
        cmpMain fl f1 f2 s1 (s2.drop o2.toNat) 0 0) ∧
    cmpMain flagsDefault "f1" "f2" [120, 121, 97, 98] [97, 98] 2 0 =
      ⟨[], .exit0⟩ := by
  refine ⟨by decide, by decide, by decide, by decide, ?_, ?_, ?_, ?_⟩
  · intro fl f1 f2 s1 s2 o1 o2
    rfl
  · intro fl f1 f2 s1 s2 o1
    simp [cmpMain, emitStream]
  · intro fl f1 f2 s1 s2 o2
    simp [cmpMain, emitStream]
  · simp [cmpMain, cmpRun, emitStream, cmpLoop, recv, flagsDefault]

end UCmp
